import Mathlib

/-!
Verification development for the ESL registration monitor
(src/esl_monitor.py).

The script fetches one page, extracts registration-related sentences and
links, diffs them against a stored snapshot, emails an alert, and saves
the snapshot.  We embed the pure core shallowly:

* strings are `List Char`; the Python string operations lower, strip,
  split on a period, startswith, and the substring test `in` are
  translated character by character below;
* `extract_page_info` takes the visible text of the chosen section and
  the list of (text, href) anchors found in it — the HTML parsing
  itself is an external library call, and its output is our input;
* `check_for_changes` is modelled as a function from the environment of
  a run (configuration present?, fetched page, state-file contents,
  does the primary email delivery succeed?) to the list of side effects
  it performs (save events and email attempts), in program order;
* the state file is `FileState`: missing, unreadable or corrupt, or a
  parsed record whose fields are optional, since a parsed JSON object
  may lack keys, which the code reads with a get-with-default.
-/

/-- ASCII lowercasing of one character, the fragment of the Python
lowercasing exercised by the fixed keyword sets. -/
def toLowerChar (c : Char) : Char :=
  if 'A' ≤ c ∧ c ≤ 'Z' then Char.ofNat (c.toNat + 32) else c

/-- Lowercasing of a string given as a character list. -/
def lower (s : List Char) : List Char := s.map toLowerChar

/-- Whitespace characters removed by the Python strip method. -/
def isSpaceChar (c : Char) : Bool :=
  c = ' ' || c = '\t' || c = '\n' || c = '\r' || c = '\x0b' || c = '\x0c'

/-- Strip: drop leading and trailing whitespace. -/
def strip (s : List Char) : List Char :=
  ((s.dropWhile isSpaceChar).reverse.dropWhile isSpaceChar).reverse

/-- Startswith test, arguments: pattern, then string. -/
def startsWith : List Char → List Char → Bool
  | [], _ => true
  | _ :: _, [] => false
  | a :: pat, b :: s => a == b && startsWith pat s

/-- Substring test, the Python `in` operator on strings: first argument
the needle, second the haystack. -/
def containsSub (needle : List Char) : List Char → Bool
  | [] => startsWith needle []
  | c :: t => startsWith needle (c :: t) || containsSub needle t

/-- Split on a one-character separator, as the Python split method with
a period argument: keeps empty fragments, and yields one empty fragment
on empty input. -/
def splitOnChar (sep : Char) : List Char → List (List Char)
  | [] => [[]]
  | c :: cs =>
    if c = sep then [] :: splitOnChar sep cs
    else
      match splitOnChar sep cs with
      | [] => [[c]]
      | h :: t => (c :: h) :: t

/-- Fixed announcement keyword list of `extract_page_info`
(src/esl_monitor.py lines 64-81), in source order. -/
def keywords : List (List Char) :=
  [ "registration opens",
    "the next registration will be",
    "registration will be on",
    "register online",
    "january", "february", "march", "april", "may", "june",
    "july", "august", "september", "october", "november",
    "december" ].map String.data

/-- Registration-intent keyword list used to filter anchors
(src/esl_monitor.py line 103). -/
def registration_keywords : List (List Char) :=
  ["register", "registration", "sign up", "signup", "enroll"].map String.data

/-- Fixed site origin prepended to relative hrefs
(src/esl_monitor.py line 107). -/
def site_origin : List Char := "https://www.santaclaraadulted.org".data

/-- URL stored for an anchor: the href itself when it starts with
http, otherwise the site origin followed by the href
(src/esl_monitor.py line 107). -/
def mkUrl (href : List Char) : List Char :=
  if startsWith "http".data href then href else site_origin ++ href

/-- Anchor element of the content region: its visible text and its raw
href attribute. -/
structure Anchor where
  text : List Char
  href : List Char
deriving DecidableEq

/-- Parsed page handed to the extractor: the visible text of the ESL
section, and the anchors with an href found in it. -/
structure Page where
  text_content : List Char
  anchors : List Anchor
deriving DecidableEq

/-- One entry of the links field of a snapshot. -/
structure Link where
  text : List Char
  url : List Char
deriving DecidableEq

/-- Snapshot built by `extract_page_info`, the info dict of the source:
registration_text, links, full_text. -/
structure Info where
  registration_text : List (List Char)
  links : List Link
  full_text : List Char
deriving DecidableEq

/-- Anchor filter of `extract_page_info` (src/esl_monitor.py line 104):
some registration keyword occurs in the lowercased link text or in the
lowercased href. -/
def linkMatches (a : Anchor) : Bool :=
  registration_keywords.any
    (fun kw => containsSub kw (lower a.text) || containsSub kw (lower a.href))

/-- Translation of `extract_page_info` (src/esl_monitor.py lines
48-110), loop for loop: outer loop over `keywords`, inner loop over the
period-delimited fragments of the original text, appending the stripped
fragment; then a loop over anchors appending the kept pairs. -/
def extract_page_info (pg : Page) : Info :=
  let full_text := lower pg.text_content
  let registration_text :=
    keywords.foldl
      (fun acc kw =>
        if containsSub kw full_text then
          (splitOnChar '.' pg.text_content).foldl
            (fun acc2 s =>
              if containsSub kw (lower s) then acc2 ++ [strip s] else acc2)
            acc
        else acc)
      []
  let links :=
    pg.anchors.foldl
      (fun acc a =>
        if linkMatches a then acc ++ [Link.mk a.text (mkUrl a.href)] else acc)
      []
  Info.mk registration_text links full_text

/-- Parsed state-file record.  A parsed JSON object can lack keys, so
every field is optional; `check_for_changes` reads the first two with a
get-with-default returning the empty list. -/
structure StoredRecord where
  registration_text : Option (List (List Char))
  links : Option (List Link)
  full_text : Option (List Char)
deriving DecidableEq

/-- Record written by `save_current_state`: the whole info dict is
serialised, so every key is present. -/
def toRecord (i : Info) : StoredRecord :=
  StoredRecord.mk (some i.registration_text) (some i.links) (some i.full_text)

/-- Contents of the state file before a run: the file may be missing,
unreadable or unparsable, or hold a parsed record. -/
inductive FileState where
  | missing
  | corrupt
  | stored (s : StoredRecord)
deriving DecidableEq

/-- Translation of `load_previous_state` (src/esl_monitor.py lines
113-121): a missing file and a file whose read or parse raises are both
reported as absent. -/
def load_previous_state : FileState → Option StoredRecord
  | FileState.stored s => some s
  | _ => none

/-- Translation of the comprehension at src/esl_monitor.py lines
213-214: the entries of the current registration_text not occurring in
the previous registration_text (missing key defaulting to empty). -/
def new_registration_text (cur : Info) (prev : StoredRecord) : List (List Char) :=
  cur.registration_text.filter
    (fun t => decide (t ∉ prev.registration_text.getD []))

/-- Url values of the previous links (src/esl_monitor.py line 221), as
the list whose set the source builds. -/
def previous_urls (prev : StoredRecord) : List (List Char) :=
  (prev.links.getD []).map Link.url

/-- Url values of the current links (src/esl_monitor.py line 222). -/
def current_urls (cur : Info) : List (List Char) :=
  cur.links.map Link.url

/-- Set difference of url values (src/esl_monitor.py line 223), as the
list of current url values outside the previous url set; only its
emptiness and its membership relation are ever used. -/
def new_links (cur : Info) (prev : StoredRecord) : List (List Char) :=
  (current_urls cur).filter (fun u => decide (u ∉ previous_urls prev))

/-- Translation of the comprehension at src/esl_monitor.py line 244:
the current link objects whose url lies in the set difference. -/
def new_link_objects (cur : Info) (prev : StoredRecord) : List Link :=
  cur.links.filter (fun l => decide (l.url ∈ new_links cur prev))

/-- The changes_detected list built in `check_for_changes`: the
announcement marker when `new_registration_text` is non-empty, then the
link marker when `new_links` is non-empty. -/
def changes_detected (cur : Info) (prev : StoredRecord) : List (List Char) :=
  (if new_registration_text cur prev ≠ [] then
    ["REGISTRATION ANNOUNCEMENT".data] else [])
    ++ (if new_links cur prev ≠ [] then ["NEW REGISTRATION LINK".data] else [])

/-- Subject of the first-run email. -/
def initSubject : List Char := "ESL Monitor Started".data

/-- Subject of a change alert: the alert marker followed by the
triggered signal names joined by an ampersand connective. -/
def alertSubject (changes : List (List Char)) : List Char :=
  "🚨 ESL ALERT: ".data ++ List.intercalate " & ".data changes

/-- Externally visible side effect of a run: a write of the state file,
or an attempt to send the primary email, where `ok` records whether
`send_email` returned success. -/
inductive Event where
  | save (s : StoredRecord)
  | email (ok : Bool) (subj : List Char)
deriving DecidableEq

/-- Translation of `check_for_changes` (src/esl_monitor.py lines
174-263) as a function from the environment of a run to its side-effect
trace.  `configOk` is whether the three required secrets are set;
`page` is the fetched and parsed page, none when the fetch failed;
`file` is the state file; `emailOk` is whether the primary SMTP
delivery succeeds.  The source calls `save_current_state` after
`send_email` without inspecting the returned success flag, and this
translation preserves that. -/
def check_for_changes (configOk : Bool) (page : Option Page)
    (file : FileState) (emailOk : Bool) : List Event :=
  if !configOk then []
  else
    match page with
    | none => []
    | some pg =>
      let current_info := extract_page_info pg
      match load_previous_state file with
      | none =>
        [Event.save (toRecord current_info), Event.email emailOk initSubject]
      | some previous_state =>
        if changes_detected current_info previous_state ≠ [] then
          [Event.email emailOk
              (alertSubject (changes_detected current_info previous_state)),
            Event.save (toRecord current_info)]
        else []

/-- State file after replaying a trace of events over an initial file
state: each save overwrites the whole file with a full record. -/
def stateAfter (events : List Event) (file : FileState) : FileState :=
  events.foldl
    (fun st e =>
      match e with
      | Event.save s => FileState.stored s
      | Event.email _ _ => st)
    file

/-- A left fold that conditionally appends one mapped element per item
equals the initial accumulator followed by the filtered, mapped list. -/
theorem foldl_filter_append {α β : Type} (p : α → Bool) (f : α → β) :
    ∀ (l : List α) (acc : List β),
      l.foldl (fun a t => if p t then a ++ [f t] else a) acc
        = acc ++ (l.filter p).map f := by
  intro l
  induction l with
  | nil => intro acc; simp
  | cons t l ih =>
    intro acc
    cases hp : p t
    · simp [List.foldl_cons, hp, ih]
    · simp [List.foldl_cons, hp, ih]

/-- A left fold whose step appends a whole block per accepted item
equals the initial accumulator followed by the flattened blocks of the
accepted items. -/
theorem foldl_guard_append {α β : Type} (q : α → Bool) (g : α → List β)
    (step : List β → α → List β)
    (hstep : ∀ acc kw, step acc kw = if q kw then acc ++ g kw else acc) :
    ∀ (ks : List α) (acc : List β),
      ks.foldl step acc = acc ++ (ks.filter q).flatMap g := by
  intro ks
  induction ks with
  | nil => intro acc; simp
  | cons k ks ih =>
    intro acc
    rw [List.foldl_cons, hstep]
    cases hq : q k
    · simp [hq, ih]
    · simp [hq, ih]

/-- The registration_text field of an extracted snapshot, in the
declarative form: one block per keyword occurring in the lowercased
full text, each block the stripped period-delimited fragments whose
lowercased form contains that keyword. -/
theorem registration_text_eq (pg : Page) :
    (extract_page_info pg).registration_text
      = (keywords.filter
            (fun kw => containsSub kw (lower pg.text_content))).flatMap
          (fun kw =>
            ((splitOnChar '.' pg.text_content).filter
                (fun s => containsSub kw (lower s))).map strip) := by
  have h := foldl_guard_append
      (fun kw => containsSub kw (lower pg.text_content))
      (fun kw =>
        ((splitOnChar '.' pg.text_content).filter
            (fun s => containsSub kw (lower s))).map strip)
      (fun acc kw =>
        if containsSub kw (lower pg.text_content) then
          (splitOnChar '.' pg.text_content).foldl
            (fun acc2 s =>
              if containsSub kw (lower s) then acc2 ++ [strip s] else acc2)
            acc
        else acc)
      (fun acc kw => by
        cases hc : containsSub kw (lower pg.text_content) <;>
          simp [hc, foldl_filter_append])
      keywords []
  simpa [extract_page_info] using h

/-- The links field of an extracted snapshot: the anchors passing the
keyword filter, mapped to their text and resolved url. -/
theorem links_eq (pg : Page) :
    (extract_page_info pg).links
      = (pg.anchors.filter linkMatches).map
          (fun a => Link.mk a.text (mkUrl a.href)) := by
  have h := foldl_filter_append linkMatches
      (fun a => Link.mk a.text (mkUrl a.href)) pg.anchors []
  simpa [extract_page_info] using h

/-- Membership in the new-registration-text payload: exactly the
current entries absent from the previous entries. -/
theorem mem_new_registration_text (cur : Info) (prev : StoredRecord)
    (t : List Char) :
    t ∈ new_registration_text cur prev
      ↔ t ∈ cur.registration_text ∧ t ∉ prev.registration_text.getD [] := by
  simp [new_registration_text]

/-- The new-registration-text payload is non-empty exactly when some
current entry is absent from the previous entries. -/
theorem new_registration_text_ne_nil (cur : Info) (prev : StoredRecord) :
    new_registration_text cur prev ≠ []
      ↔ ∃ t ∈ cur.registration_text, t ∉ prev.registration_text.getD [] := by
  constructor
  · intro h
    obtain ⟨t, ht⟩ := List.exists_mem_of_ne_nil _ h
    rw [mem_new_registration_text] at ht
    exact ⟨t, ht.1, ht.2⟩
  · rintro ⟨t, ht, hnot⟩ hnil
    have hmem := (mem_new_registration_text cur prev t).mpr ⟨ht, hnot⟩
    rw [hnil] at hmem
    exact List.not_mem_nil t hmem

/-- Membership in the url set difference. -/
theorem mem_new_links (cur : Info) (prev : StoredRecord) (u : List Char) :
    u ∈ new_links cur prev
      ↔ u ∈ current_urls cur ∧ u ∉ previous_urls prev := by
  simp [new_links]

/-- The url set difference is non-empty exactly when the current url
values are not a subset of the previous url values. -/
theorem new_links_ne_nil (cur : Info) (prev : StoredRecord) :
    new_links cur prev ≠ [] ↔ ¬ current_urls cur ⊆ previous_urls prev := by
  constructor
  · intro h hsub
    obtain ⟨u, hu⟩ := List.exists_mem_of_ne_nil _ h
    rw [mem_new_links] at hu
    exact hu.2 (hsub hu.1)
  · intro h hnil
    apply h
    intro u hu
    by_contra hnot
    have hmem := (mem_new_links cur prev u).mpr ⟨hu, hnot⟩
    rw [hnil] at hmem
    exact List.not_mem_nil u hmem

/-- The announcement marker is in the changes list exactly when the
new-registration-text payload is non-empty. -/
theorem ra_mem_changes (cur : Info) (prev : StoredRecord) :
    "REGISTRATION ANNOUNCEMENT".data ∈ changes_detected cur prev
      ↔ new_registration_text cur prev ≠ [] := by
  have hne : "REGISTRATION ANNOUNCEMENT".data ≠ "NEW REGISTRATION LINK".data := by
    decide
  unfold changes_detected
  by_cases h1 : new_registration_text cur prev ≠ [] <;>
    by_cases h2 : new_links cur prev ≠ [] <;>
    simp [h1, h2, hne]

/-- The new-link marker is in the changes list exactly when the url set
difference is non-empty. -/
theorem nl_mem_changes (cur : Info) (prev : StoredRecord) :
    "NEW REGISTRATION LINK".data ∈ changes_detected cur prev
      ↔ new_links cur prev ≠ [] := by
  have hne : "NEW REGISTRATION LINK".data ≠ "REGISTRATION ANNOUNCEMENT".data := by
    decide
  unfold changes_detected
  by_cases h1 : new_registration_text cur prev ≠ [] <;>
    by_cases h2 : new_links cur prev ≠ [] <;>
    simp [h1, h2, hne]

/-- The new-link payload filters the current links by absence of their
url from the previous url values. -/
theorem new_link_objects_eq (cur : Info) (prev : StoredRecord) :
    new_link_objects cur prev
      = cur.links.filter (fun l => decide (l.url ∉ previous_urls prev)) := by
  unfold new_link_objects
  apply List.filter_congr
  intro l hl
  rw [decide_eq_decide, mem_new_links]
  have hmem : l.url ∈ current_urls cur := List.mem_map_of_mem Link.url hl
  exact and_iff_right hmem

/-- A run whose state file loads as absent takes the first-run path:
it saves the current snapshot, then attempts the start-up email. -/
theorem run_missing (pg : Page) (ok : Bool) (file : FileState)
    (h : load_previous_state file = none) :
    check_for_changes true (some pg) file ok
      = [Event.save (toRecord (extract_page_info pg)),
          Event.email ok initSubject] := by
  simp [check_for_changes, h]

/-- A run over a parsed previous record either alerts and saves, in
that order, or does nothing, according to the changes list. -/
theorem run_stored (pg : Page) (ok : Bool) (prev : StoredRecord) :
    check_for_changes true (some pg) (FileState.stored prev) ok
      = if changes_detected (extract_page_info pg) prev ≠ [] then
          [Event.email ok
              (alertSubject (changes_detected (extract_page_info pg) prev)),
            Event.save (toRecord (extract_page_info pg))]
        else [] := by
  simp [check_for_changes, load_previous_state]

/-- Diffing a snapshot against its own saved record detects nothing. -/
theorem changes_detected_self (cur : Info) :
    changes_detected cur (toRecord cur) = [] := by
  have h1 : new_registration_text cur (toRecord cur) = [] := by
    apply List.filter_eq_nil_iff.mpr
    intro t ht
    simp [toRecord, ht]
  have h2 : new_links cur (toRecord cur) = [] := by
    apply List.filter_eq_nil_iff.mpr
    intro u hu
    simp only [current_urls] at hu
    simp [previous_urls, toRecord, hu]
  simp [changes_detected, h1, h2]

/-- A run over the stored record of its own extraction is silent. -/
theorem check_self (pg : Page) (ok : Bool) :
    check_for_changes true (some pg)
      (FileState.stored (toRecord (extract_page_info pg))) ok = [] := by
  rw [run_stored, if_neg]
  intro h
  exact h (changes_detected_self (extract_page_info pg))

/-- Whatever the initial state file, a second run over the same page is
silent: it performs no side effect at all. -/
theorem second_run_empty (pg : Page) (file : FileState) (ok1 ok2 : Bool) :
    check_for_changes true (some pg)
      (stateAfter (check_for_changes true (some pg) file ok1) file) ok2 = [] := by
  cases file with
  | missing =>
    rw [run_missing pg ok1 FileState.missing rfl]
    exact check_self pg ok2
  | corrupt =>
    rw [run_missing pg ok1 FileState.corrupt rfl]
    exact check_self pg ok2
  | stored prev =>
    rw [run_stored pg ok1 prev]
    by_cases hc : changes_detected (extract_page_info pg) prev ≠ []
    · rw [if_pos hc]
      exact check_self pg ok2
    · rw [if_neg hc]
      have hst : stateAfter [] (FileState.stored prev) = FileState.stored prev := rfl
      rw [hst, run_stored pg ok2 prev, if_neg hc]

/-- Counting over flattened blocks: when every accepted item
contributes the element at least once, the count dominates the number
of accepted items. -/
theorem count_flatMap_ge {α β : Type} [BEq β] [LawfulBEq β]
    (g : α → List β) (q : α → Bool) (b : β) :
    ∀ A : List α, (∀ x ∈ A, q x = true → b ∈ g x) →
      (A.filter q).length ≤ (A.flatMap g).count b := by
  intro A
  induction A with
  | nil => simp
  | cons a A ih =>
    intro h
    rw [List.flatMap_cons, List.count_append]
    have hrest : (A.filter q).length ≤ (A.flatMap g).count b :=
      ih (fun x hx hq => h x (List.mem_cons_of_mem a hx) hq)
    cases hq : q a
    · rw [List.filter_cons_of_neg (by simp [hq])]
      exact hrest.trans (Nat.le_add_left _ _)
    · rw [List.filter_cons_of_pos hq, List.length_cons]
      have hb : b ∈ g a := h a (List.mem_cons_self a A) hq
      have hpos : 0 < (g a).count b := List.count_pos_iff.mpr hb
      omega

/-- Filtering by a conjunction equals filtering twice. -/
theorem filter_and_eq {α : Type} (p q : α → Bool) (l : List α) :
    l.filter (fun x => p x && q x) = (l.filter p).filter q := by
  rw [List.filter_filter]
  apply List.filter_congr
  intro x _
  exact Bool.and_comm (p x) (q x)

/-- C2: for every pair of snapshots, the registration-announcement
signal fires exactly when some entry of the current registration text
is absent, by exact string equality, from the previous registration
text; and the payload is exactly the current entries, in order, that
are absent from the previous entries. -/
theorem c2_registration_announcement_signal (cur : Info) (prev : StoredRecord) :
    ("REGISTRATION ANNOUNCEMENT".data ∈ changes_detected cur prev
        ↔ ∃ t ∈ cur.registration_text, t ∉ prev.registration_text.getD [])
    ∧ new_registration_text cur prev
        = cur.registration_text.filter
            (fun t => decide (t ∉ prev.registration_text.getD []))
    ∧ List.Sublist (new_registration_text cur prev) cur.registration_text
    ∧ ∀ t, t ∈ new_registration_text cur prev
        ↔ t ∈ cur.registration_text ∧ t ∉ prev.registration_text.getD [] := by
  refine ⟨?_, rfl, List.filter_sublist _, mem_new_registration_text cur prev⟩
  rw [ra_mem_changes]
  exact new_registration_text_ne_nil cur prev

/-- C3: for every pair of snapshots, the new-link signal fires exactly
when the current url values are not a subset of the previous url
values; the payload is every current link object whose url lies in the
set difference, which is exactly the filter below; and a current link
whose url already occurs in the previous links, under any text, is
never in the payload. -/
theorem c3_new_link_signal (cur : Info) (prev : StoredRecord) :
    ("NEW REGISTRATION LINK".data ∈ changes_detected cur prev
        ↔ ¬ current_urls cur ⊆ previous_urls prev)
    ∧ new_link_objects cur prev
        = cur.links.filter (fun l => decide (l.url ∉ previous_urls prev))
    ∧ (∀ l, l ∈ new_link_objects cur prev
        ↔ l ∈ cur.links ∧ l.url ∉ previous_urls prev)
    ∧ ∀ l l', l' ∈ prev.links.getD [] → l'.url = l.url →
        l ∉ new_link_objects cur prev := by
  have hmem : ∀ l, l ∈ new_link_objects cur prev
      ↔ l ∈ cur.links ∧ l.url ∉ previous_urls prev := by
    intro l
    rw [new_link_objects_eq]
    simp [List.mem_filter]
  refine ⟨?_, new_link_objects_eq cur prev, hmem, ?_⟩
  · rw [nl_mem_changes]
    exact new_links_ne_nil cur prev
  · intro l l' hl' hurl hin
    have hprev : l.url ∈ previous_urls prev := by
      rw [← hurl]
      exact List.mem_map_of_mem Link.url hl'
    exact ((hmem l).mp hin).2 hprev

/-- C4: the registration text of an extracted snapshot consists, per
keyword of the fixed set occurring in the lowercased full text and in
the listed order, of the stripped period-delimited fragments of the
original text whose lowercased form contains that keyword; hence a
fragment of the split matching k such keywords occurs at least k times
in the result — duplication is preserved. -/
theorem c4_registration_text_structure (pg : Page) (s : List Char)
    (h : s ∈ splitOnChar '.' pg.text_content) :
    (extract_page_info pg).registration_text
      = (keywords.filter
            (fun kw => containsSub kw (lower pg.text_content))).flatMap
          (fun kw =>
            ((splitOnChar '.' pg.text_content).filter
                (fun t => containsSub kw (lower t))).map strip)
    ∧ (keywords.filter
          (fun kw => containsSub kw (lower pg.text_content)
            && containsSub kw (lower s))).length
        ≤ (extract_page_info pg).registration_text.count (strip s) := by
  refine ⟨registration_text_eq pg, ?_⟩
  rw [registration_text_eq pg,
    filter_and_eq (fun kw => containsSub kw (lower pg.text_content))
      (fun kw => containsSub kw (lower s)) keywords]
  apply count_flatMap_ge
  intro kw _ hq
  exact List.mem_map_of_mem strip (List.mem_filter.mpr ⟨h, hq⟩)

/-- C4 witness: a page whose text matches both an announcement phrase
and a month name retains the fragment twice. -/
theorem c4_registration_text_structure_witness :
    "Registration opens in March".data
        ∈ splitOnChar '.' "Registration opens in March".data
    ∧ (keywords.filter
          (fun kw =>
            containsSub kw (lower "Registration opens in March".data)
              && containsSub kw (lower "Registration opens in March".data))).length
        ≤ (extract_page_info
            (Page.mk "Registration opens in March".data
              [])).registration_text.count
            (strip "Registration opens in March".data) :=
  ⟨by decide,
    (c4_registration_text_structure
      (Page.mk "Registration opens in March".data [])
      "Registration opens in March".data (by decide)).2⟩

/-- C5: the links of an extracted snapshot are exactly the anchors
whose visible text or href contains, case-insensitively, one of the
registration-intent keywords, mapped to their text and resolved url;
in particular an anchor with text Click here and href /about never
passes the filter, and an anchor with text Enroll Now passes it for
every href. -/
theorem c5_link_keyword_filter (pg : Page) :
    (extract_page_info pg).links
      = (pg.anchors.filter linkMatches).map
          (fun a => Link.mk a.text (mkUrl a.href))
    ∧ linkMatches (Anchor.mk "Click here".data "/about".data) = false
    ∧ ∀ href, linkMatches (Anchor.mk "Enroll Now".data href) = true := by
  refine ⟨links_eq pg, by decide, ?_⟩
  intro href
  unfold linkMatches
  apply List.any_eq_true.mpr
  refine ⟨"enroll".data, by decide, ?_⟩
  rw [Bool.or_eq_true]
  exact Or.inl
    (show containsSub "enroll".data (lower "Enroll Now".data) = true by decide)

/-- C6: every included anchor is stored with an absolute url: an href
already starting with http is kept unchanged, any other href is
prefixed with the fixed site origin, and in particular the href
/esl/register resolves to the site origin followed by that path. -/
theorem c6_absolute_url (pg : Page) (a : Anchor) (ha : a ∈ pg.anchors)
    (hm : linkMatches a = true) :
    Link.mk a.text (mkUrl a.href) ∈ (extract_page_info pg).links
    ∧ (∀ href, startsWith "http".data href = true → mkUrl href = href)
    ∧ (∀ href, startsWith "http".data href = false →
        mkUrl href = site_origin ++ href)
    ∧ mkUrl "/esl/register".data = site_origin ++ "/esl/register".data := by
  refine ⟨?_, ?_, ?_, by decide⟩
  · rw [links_eq]
    exact List.mem_map_of_mem _ (List.mem_filter.mpr ⟨ha, hm⟩)
  · intro href hh
    simp [mkUrl, hh]
  · intro href hh
    simp [mkUrl, hh]

/-- C6 witness: the anchor with text Enroll Now and href /esl/register
is included with the resolved absolute url. -/
theorem c6_absolute_url_witness :
    Link.mk "Enroll Now".data (mkUrl "/esl/register".data)
        ∈ (extract_page_info
            (Page.mk []
              [Anchor.mk "Enroll Now".data "/esl/register".data])).links
    ∧ mkUrl "/esl/register".data = site_origin ++ "/esl/register".data := by
  have h := c6_absolute_url
      (Page.mk [] [Anchor.mk "Enroll Now".data "/esl/register".data])
      (Anchor.mk "Enroll Now".data "/esl/register".data)
      (by decide) (by decide)
  exact ⟨h.1, h.2.2.2⟩

/-- C7: detecting a snapshot against a stored state equal to it yields
an empty change list; and after any run over a page, a second run over
the same page performs no side effect at all, so the stored state after
the second run equals the stored state before it. -/
theorem c7_noop_run_idempotent :
    (∀ cur : Info, changes_detected cur (toRecord cur) = [])
    ∧ (∀ (pg : Page) (file : FileState) (ok1 ok2 : Bool),
        check_for_changes true (some pg)
          (stateAfter (check_for_changes true (some pg) file ok1) file) ok2
          = [])
    ∧ ∀ (pg : Page) (file : FileState) (ok1 ok2 : Bool),
        stateAfter
          (check_for_changes true (some pg)
            (stateAfter (check_for_changes true (some pg) file ok1) file) ok2)
          (stateAfter (check_for_changes true (some pg) file ok1) file)
        = stateAfter (check_for_changes true (some pg) file ok1) file := by
  refine ⟨changes_detected_self, second_run_empty, ?_⟩
  intro pg file ok1 ok2
  rw [second_run_empty pg file ok1 ok2]
  rfl

/-- C8: loading the previous state yields absent, not an error, both
for a missing state file and for an unreadable or corrupt one; and a
run whose load yields absent proceeds on the first-run path, saving the
current snapshot and attempting the start-up email. -/
theorem c8_absent_state_is_first_run (pg : Page) (ok : Bool)
    (file : FileState) (h : load_previous_state file = none) :
    load_previous_state FileState.missing = none
    ∧ load_previous_state FileState.corrupt = none
    ∧ check_for_changes true (some pg) file ok
        = [Event.save (toRecord (extract_page_info pg)),
            Event.email ok initSubject] :=
  ⟨rfl, rfl, run_missing pg ok file h⟩

/-- C8 witness: a corrupt state file takes the first-run path. -/
theorem c8_absent_state_is_first_run_witness :
    check_for_changes true (some (Page.mk [] [])) FileState.corrupt true
      = [Event.save (toRecord (extract_page_info (Page.mk [] []))),
          Event.email true initSubject] :=
  (c8_absent_state_is_first_run (Page.mk [] []) true FileState.corrupt rfl).2.2

/-- C10: on the first-run path the save of the baseline snapshot comes
first in the trace and the start-up email attempt second, and the state
file afterwards holds the extracted snapshot whether or not the email
delivery succeeded. -/
theorem c10_first_run_persists_unconditionally (pg : Page) (ok : Bool) :
    check_for_changes true (some pg) FileState.missing ok
      = [Event.save (toRecord (extract_page_info pg)),
          Event.email ok initSubject]
    ∧ stateAfter (check_for_changes true (some pg) FileState.missing ok)
        FileState.missing
      = FileState.stored (toRecord (extract_page_info pg)) := by
  have h := run_missing pg ok FileState.missing rfl
  refine ⟨h, ?_⟩
  rw [h]
  rfl

/-- Page of the C1 failing input: the visible text raises a
registration announcement and there are no anchors. -/
def c1Page : Page := Page.mk "Registration opens in March".data []

/-- Previous record of the C1 failing input: a well-formed stored
state with empty registration text and no links. -/
def c1Prev : StoredRecord := StoredRecord.mk (some []) (some []) (some [])

/-- C1: evaluation at the failing input.  With a stored previous state,
a page that raises a registration announcement, and a primary delivery
that fails, the run first attempts the alert email with failure
recorded, then still overwrites the state file with the new snapshot;
the stored state after the run differs from the stored state before it,
and a subsequent run over the same page raises no signal at all —
contradicting the claim that a failed notification leaves the stored
state unchanged so the change is re-detected. -/
theorem c1_failed_notification_still_persists :
    check_for_changes true (some c1Page) (FileState.stored c1Prev) false
      = [Event.email false (alertSubject ["REGISTRATION ANNOUNCEMENT".data]),
          Event.save (toRecord (extract_page_info c1Page))]
    ∧ stateAfter
        (check_for_changes true (some c1Page) (FileState.stored c1Prev) false)
        (FileState.stored c1Prev)
      ≠ FileState.stored c1Prev
    ∧ check_for_changes true (some c1Page)
        (stateAfter
          (check_for_changes true (some c1Page) (FileState.stored c1Prev) false)
          (FileState.stored c1Prev)) false = [] := by
  refine ⟨by decide, by decide, by decide⟩
